import Mathlib

/-!
Verification development for the triton-kubernetes state-management core.

The Lean definitions below are shallow embeddings of the Go source:
  * `getNewHostnames`, `startNumGo`, `parsedSuffix`, `goAtoi` embed the
    hostname-assignment algorithm of `create` (src/unnamed/part_001,
    function `getNewHostnames`), including Go `strconv.Atoi` semantics
    (optional sign, decimal digits, signed 64-bit range check) and Go
    two's-complement 64-bit integer wrap-around on `+`.
  * `runTerraformApplyWithState` / `runTerraformDestroyWithState` embed the
    shell package (src/unnamed/part_000) as trace-producing functions over
    an environment of external collaborators.
  * `Part001.newTritonNode` embeds the node-provisioning operation of
    src/unnamed/part_001; `NodeTriton.newTritonNode` embeds the variant in
    src/create/node_triton.go; `ManagerAzure.newAzureManager` embeds
    src/create/manager_azure.go.
External collaborators (prompt UI, cloud SDK calls, the terraform binary,
the file system) are modelled as environment records of explicitly
supplied outcomes, exactly at the interface boundary the spec declares
out of scope.
-/

namespace TK

/-- Go errors are carried as opaque message strings. -/
abbrev GoErr := String

/-! ### Decimal digit strings (Go `strconv` / `fmt %d` model) -/

/-- Is `c` an ASCII decimal digit? -/
def isDigitCh (c : Char) : Bool := 48 ≤ c.toNat && c.toNat ≤ 57

/-- The ASCII digit character for digit `d` (`d < 10`). -/
def digitChr (d : Nat) : Char := Char.ofNat (48 + d)

/-- Big-endian decimal digits of `n`, fuelled for structural recursion. -/
def natDigitsAux : Nat → Nat → List Nat
  | 0, _ => []
  | fuel + 1, n => if n < 10 then [n] else natDigitsAux fuel (n / 10) ++ [n % 10]

/-- Big-endian decimal digits of `n` (canonical: no leading zero except for 0). -/
def natDigits (n : Nat) : List Nat := natDigitsAux (n + 1) n

/-- Canonical decimal string of a natural number, as produced by Go's
`fmt` / `strconv` formatting. -/
def natRepr (n : Nat) : String := String.mk ((natDigits n).map digitChr)

/-- Decimal string of a Go `int` value (minus sign for negatives),
as produced by `fmt.Sprintf("%d", v)`. -/
def intRepr (v : Int) : String :=
  if v < 0 then "-" ++ natRepr v.natAbs else natRepr v.toNat

/-- Value of a big-endian digit list. -/
def digitsVal (l : List Nat) : Nat := l.foldl (fun a d => 10 * a + d) 0

/-- Parse a non-empty all-digit character list to its value (`none` otherwise). -/
def parseDigitsCh (l : List Char) : Option Nat :=
  if l.isEmpty then none
  else if l.all isDigitCh then some (l.foldl (fun a c => 10 * a + (c.toNat - 48)) 0)
  else none

/-- Smallest Go `int64` value, `-2^63`. -/
def int64Min : Int := -9223372036854775808

/-- Largest Go `int64` value, `2^63 - 1`. -/
def int64Max : Int := 9223372036854775807

/-- Two's-complement wrap-around of an integer into the Go `int64` range
(`(n + 2^63) mod 2^64 - 2^63`), the semantics Go gives to overflowing
`+` on `int`. -/
def wrap64 (n : Int) : Int :=
  (n + 9223372036854775808) % 18446744073709551616 - 9223372036854775808

/-- The signed 64-bit range check `strconv` performs (out of range is a
non-nil error, modelled as `none`). -/
def rangeChk64 (v : Int) : Option Int :=
  if v < int64Min ∨ int64Max < v then none else some v

/-- Go `strconv.Atoi` on a byte (character) list: optional single `+`/`-`
sign, then one or more decimal digits, value within the signed 64-bit
range; `none` models a non-nil error. -/
def goAtoi (cs : List Char) : Option Int :=
  match cs with
  | [] => none
  | c :: rest =>
    if c = '+' then (parseDigitsCh rest).bind fun m => rangeChk64 (Int.ofNat m)
    else if c = '-' then (parseDigitsCh rest).bind fun m => rangeChk64 (-(Int.ofNat m : Int))
    else (parseDigitsCh cs).bind fun m => rangeChk64 (Int.ofNat m)

/-- Does list `p` start list `s`? (model of Go `strings.HasPrefix` on bytes). -/
def listStartsWith : List Char → List Char → Bool
  | [], _ => true
  | _ :: _, [] => false
  | a :: as, b :: bs => a == b && listStartsWith as bs

/-- Does `hay` contain `needle` as a contiguous substring?
(model of Go `strings.Contains`). -/
def strContainsSub (hay needle : String) : Bool :=
  (List.range (hay.data.length + 1)).any fun i => listStartsWith needle.data (hay.data.drop i)

/-! ### The NodeNamer (`getNewHostnames`, src/unnamed/part_001 lines 295-340) -/

/-- For one entry of `existingNames`: if it starts with `nodeName + "-"`
(Go `strings.HasPrefix`, byte-exact and case-sensitive), the
`strconv.Atoi` parse of the remaining suffix; `none` when the prefix does
not match or the parse errors.  This packages the loop body tests of
`getNewHostnames`. -/
def parsedSuffix (nodeName s : String) : Option Int :=
  let targetPre := nodeName ++ "-"
  if listStartsWith targetPre.data s.data then goAtoi (s.data.drop targetPre.data.length)
  else none

/-- One step of the `startNum` scan of `getNewHostnames`:
`if numSuffix >= startNum { startNum = numSuffix + 1 }`, the `+ 1`
wrapping like Go 64-bit `int` addition. -/
def startNumStep (nodeName : String) (acc : Int) (s : String) : Int :=
  match parsedSuffix nodeName s with
  | none => acc
  | some v => if acc ≤ v then wrap64 (v + 1) else acc

/-- The number at which the series of generated hostnames starts
(the `startNum` loop of `getNewHostnames`, initial value 1). -/
def startNumGo (existingNames : List String) (nodeName : String) : Int :=
  existingNames.foldl (startNumStep nodeName) 1

/-- Embedding of `getNewHostnames(existingNames, nodeName, nodesToAdd)`
from src/unnamed/part_001.  `nodesToAdd` is a Go `int`; additions wrap
like Go 64-bit integers. -/
def getNewHostnames (existingNames : List String) (nodeName : String)
    (nodesToAdd : Int) : List String :=
  if nodesToAdd < 1 then []
  else if nodesToAdd = 1 ∧ ¬ existingNames.contains nodeName then [nodeName]
  else
    let startNum := startNumGo existingNames nodeName
    (List.range nodesToAdd.toNat).map fun (i : Nat) =>
      nodeName ++ "-" ++ intRepr (wrap64 (startNum + (i : Int)))

/-! ### Lemmas about decimal digit strings -/

theorem digitChr_toNat {d : Nat} (h : d < 10) : (digitChr d).toNat = 48 + d := by
  interval_cases d <;> decide

theorem isDigitCh_digitChr {d : Nat} (h : d < 10) : isDigitCh (digitChr d) = true := by
  interval_cases d <;> decide

theorem digitChr_ne_plus {d : Nat} (h : d < 10) : digitChr d ≠ '+' := by
  interval_cases d <;> decide

theorem digitChr_ne_minus {d : Nat} (h : d < 10) : digitChr d ≠ '-' := by
  interval_cases d <;> decide

theorem natDigitsAux_irrel : ∀ {f g n : Nat}, n < f → n < g →
    natDigitsAux f n = natDigitsAux g n := by
  intro f
  induction f with
  | zero => intro g n h; omega
  | succ f ih =>
    intro g n hf hg
    cases g with
    | zero => omega
    | succ g =>
      simp only [natDigitsAux]
      by_cases h10 : n < 10
      · simp [h10]
      · simp only [h10, if_false]
        have hrec : n / 10 < n := Nat.div_lt_self (by omega) (by omega)
        exact congrArg (fun l => l ++ [n % 10]) (ih (by omega) (by omega))

theorem natDigits_eq_lt {n : Nat} (h : n < 10) : natDigits n = [n] := by
  simp [natDigits, natDigitsAux, h]

theorem natDigits_eq_ge {n : Nat} (h : 10 ≤ n) :
    natDigits n = natDigits (n / 10) ++ [n % 10] := by
  have hrec : n / 10 < n := Nat.div_lt_self (by omega) (by omega)
  show natDigitsAux (n + 1) n = natDigitsAux (n / 10 + 1) (n / 10) ++ [n % 10]
  rw [show natDigitsAux (n + 1) n
      = if n < 10 then [n] else natDigitsAux n (n / 10) ++ [n % 10] from rfl]
  rw [if_neg (by omega)]
  exact congrArg (fun l => l ++ [n % 10]) (natDigitsAux_irrel (by omega) (by omega))

theorem natDigits_ne_nil (n : Nat) : natDigits n ≠ [] := by
  by_cases h : n < 10
  · simp [natDigits_eq_lt h]
  · simp [natDigits_eq_ge (by omega : 10 ≤ n)]

theorem natDigits_all_lt (n : Nat) : ∀ d ∈ natDigits n, d < 10 := by
  induction n using Nat.strong_induction_on with
  | _ n ih =>
    by_cases h : n < 10
    · simp [natDigits_eq_lt h]; omega
    · rw [natDigits_eq_ge (by omega : 10 ≤ n)]
      intro d hd
      rcases List.mem_append.mp hd with hd | hd
      · exact ih (n / 10) (Nat.div_lt_self (by omega) (by omega)) d hd
      · simp at hd; omega

theorem digitsVal_append_digit (l : List Nat) (d : Nat) :
    digitsVal (l ++ [d]) = 10 * digitsVal l + d := by
  simp [digitsVal, List.foldl_append]

theorem digitsVal_natDigits (n : Nat) : digitsVal (natDigits n) = n := by
  induction n using Nat.strong_induction_on with
  | _ n ih =>
    by_cases h : n < 10
    · simp [natDigits_eq_lt h, digitsVal]
    · rw [natDigits_eq_ge (by omega : 10 ≤ n), digitsVal_append_digit,
        ih (n / 10) (Nat.div_lt_self (by omega) (by omega))]
      omega

theorem foldl_digitChr (l : List Nat) (hl : ∀ d ∈ l, d < 10) : ∀ a : Nat,
    (l.map digitChr).foldl (fun a c => 10 * a + (c.toNat - 48)) a =
      l.foldl (fun a d => 10 * a + d) a := by
  induction l with
  | nil => intro a; rfl
  | cons d l ih =>
    intro a
    have hd : d < 10 := hl d (by simp)
    simp only [List.map_cons, List.foldl_cons, digitChr_toNat hd]
    rw [ih (fun x hx => hl x (by simp [hx]))]
    congr 1
    omega

theorem parseDigitsCh_natDigits (n : Nat) :
    parseDigitsCh ((natDigits n).map digitChr) = some n := by
  have hne : (natDigits n).map digitChr ≠ [] := by
    simpa using natDigits_ne_nil n
  have hall : ((natDigits n).map digitChr).all isDigitCh = true := by
    rw [List.all_eq_true]
    intro c hc
    rcases List.mem_map.mp hc with ⟨d, hd, rfl⟩
    exact isDigitCh_digitChr (natDigits_all_lt n d hd)
  simp only [parseDigitsCh, List.isEmpty_iff, hne, if_false, hall, if_true]
  rw [foldl_digitChr _ (natDigits_all_lt n)]
  have := digitsVal_natDigits n
  simp only [digitsVal] at this
  rw [this]

theorem natRepr_data (n : Nat) : (natRepr n).data = (natDigits n).map digitChr := rfl

theorem natRepr_inj {a b : Nat} (h : natRepr a = natRepr b) : a = b := by
  have hd : (natDigits a).map digitChr = (natDigits b).map digitChr :=
    congrArg String.data h
  have := parseDigitsCh_natDigits a
  rw [hd, parseDigitsCh_natDigits b] at this
  exact (Option.some.inj this).symm

theorem wrap64_eq_self {n : Int} (h1 : int64Min ≤ n) (h2 : n ≤ int64Max) :
    wrap64 n = n := by
  simp only [int64Min, int64Max] at h1 h2
  unfold wrap64
  rw [Int.emod_eq_of_lt (by omega) (by omega)]
  omega

/-- `strconv.Atoi` parses back the canonical decimal string of any
in-range positive value. -/
theorem goAtoi_natRepr {n : Nat} (h2 : (n : Int) ≤ int64Max) :
    goAtoi (natRepr n).data = some (n : Int) := by
  rcases hd : natDigits n with _ | ⟨d, ds⟩
  · exact absurd hd (natDigits_ne_nil n)
  · have hdlt : d < 10 := natDigits_all_lt n d (by rw [hd]; simp)
    have hdata : (natRepr n).data = digitChr d :: ds.map digitChr := by
      rw [natRepr_data, hd]; rfl
    rw [hdata]
    rw [show goAtoi (digitChr d :: ds.map digitChr)
        = if digitChr d = '+' then
            (parseDigitsCh (ds.map digitChr)).bind fun m => rangeChk64 (Int.ofNat m)
          else if digitChr d = '-' then
            (parseDigitsCh (ds.map digitChr)).bind fun m => rangeChk64 (-(Int.ofNat m : Int))
          else (parseDigitsCh (digitChr d :: ds.map digitChr)).bind fun m =>
            rangeChk64 (Int.ofNat m) from rfl]
    rw [if_neg (digitChr_ne_plus hdlt), if_neg (digitChr_ne_minus hdlt)]
    have hmap : digitChr d :: ds.map digitChr = (natDigits n).map digitChr := by
      rw [hd]; rfl
    rw [hmap, parseDigitsCh_natDigits n]
    have hofn : (Int.ofNat n : Int) = (n : Int) := rfl
    have hrange : ¬((Int.ofNat n : Int) < int64Min ∨ int64Max < (Int.ofNat n : Int)) := by
      simp only [int64Min, int64Max, hofn] at h2 ⊢
      omega
    rw [show ((some n).bind fun m => rangeChk64 (Int.ofNat m))
        = rangeChk64 (Int.ofNat n) from rfl]
    unfold rangeChk64
    rw [if_neg hrange, hofn]

/-- No character of a canonical decimal string is a sign character:
they are all digits. -/
theorem plus_not_in_natRepr (n : Nat) : '+' ∉ (natRepr n).data := by
  intro hmem
  rw [natRepr_data] at hmem
  rcases List.mem_map.mp hmem with ⟨d, hd, hEq⟩
  exact digitChr_ne_plus (natDigits_all_lt n d hd) hEq

/-! ### Characterizing the `startNum` scan -/

/-- `maxSuffix` as the (amended) spec describes it: one step of a maximum
over the positive values `strconv.Atoi` extracts from suffixes of entries
carrying the `nodeName + "-"` prefix. -/
def maxSuffixStep (nodeName : String) (a : Int) (s : String) : Int :=
  match parsedSuffix nodeName s with
  | none => a
  | some v => if 1 ≤ v then max a v else a

/-- The largest positive parsed suffix value among `existingNames`
(0 when there is none). -/
def goMaxSuffix (existingNames : List String) (nodeName : String) : Int :=
  existingNames.foldl (maxSuffixStep nodeName) 0

theorem maxSuffix_fold_ge_acc (nodeName : String) :
    ∀ (l : List String) (a : Int), a ≤ l.foldl (maxSuffixStep nodeName) a := by
  intro l
  induction l with
  | nil => intro a; simp
  | cons s l ih =>
    intro a
    refine le_trans ?_ (ih (maxSuffixStep nodeName a s))
    unfold maxSuffixStep
    rcases parsedSuffix nodeName s with _ | v
    · exact le_refl a
    · dsimp only
      split
      · exact le_max_left a v
      · exact le_refl a

theorem maxSuffix_fold_ge_parsed (nodeName : String) :
    ∀ (l : List String) (a : Int) (s : String), s ∈ l →
      ∀ v, parsedSuffix nodeName s = some v → 1 ≤ v →
        v ≤ l.foldl (maxSuffixStep nodeName) a := by
  intro l
  induction l with
  | nil => intro a s hs; simp at hs
  | cons t l ih =>
    intro a s hs v hv h1
    rcases List.mem_cons.mp hs with rfl | hs
    · refine le_trans ?_ (maxSuffix_fold_ge_acc nodeName l (maxSuffixStep nodeName a s))
      unfold maxSuffixStep
      rw [hv]
      dsimp only
      rw [if_pos h1]
      exact le_max_right a v
    · exact ih (maxSuffixStep nodeName a t) s hs v hv h1

theorem maxSuffix_fold_cases (nodeName : String) :
    ∀ (l : List String) (a : Int),
      l.foldl (maxSuffixStep nodeName) a = a
      ∨ ∃ s ∈ l, ∃ v, parsedSuffix nodeName s = some v ∧ 1 ≤ v ∧
          l.foldl (maxSuffixStep nodeName) a = v := by
  intro l
  induction l with
  | nil => intro a; exact Or.inl rfl
  | cons t l ih =>
    intro a
    have hstep : (t :: l).foldl (maxSuffixStep nodeName) a
        = l.foldl (maxSuffixStep nodeName) (maxSuffixStep nodeName a t) := rfl
    rcases ih (maxSuffixStep nodeName a t) with h | ⟨s, hs, v, hv, h1, hEq⟩
    · rw [hstep, h]
      rcases hp : parsedSuffix nodeName t with _ | v
      · left; unfold maxSuffixStep; rw [hp]
      · unfold maxSuffixStep
        rw [hp]
        dsimp only
        by_cases h1 : 1 ≤ v
        · rw [if_pos h1]
          rcases le_or_lt v a with hva | hav
          · left; exact max_eq_left hva
          · right
            exact ⟨t, by simp, v, hp, h1, max_eq_right (le_of_lt hav)⟩
        · rw [if_neg h1]; left; rfl
    · right
      exact ⟨s, List.mem_cons_of_mem t hs, v, hv, h1, by rw [hstep, hEq]⟩

/-- When no parsed suffix can overflow the `numSuffix + 1` update, the
`startNum` scan computes exactly one more than the running maximum of the
positive parsed suffix values. -/
theorem startNum_fold_eq_maxSuffix (nodeName : String) :
    ∀ (l : List String) (a : Int), 1 ≤ a → a ≤ int64Max →
      (∀ s ∈ l, ∀ v, parsedSuffix nodeName s = some v → v ≤ int64Max - 1) →
      l.foldl (startNumStep nodeName) a = l.foldl (maxSuffixStep nodeName) (a - 1) + 1 := by
  intro l
  induction l with
  | nil => intro a _ _ _; simp
  | cons t l ih =>
    intro a ha1 ha2 hB
    have hstepS : (t :: l).foldl (startNumStep nodeName) a
        = l.foldl (startNumStep nodeName) (startNumStep nodeName a t) := rfl
    have hstepM : (t :: l).foldl (maxSuffixStep nodeName) (a - 1)
        = l.foldl (maxSuffixStep nodeName) (maxSuffixStep nodeName (a - 1) t) := rfl
    have hBl : ∀ s ∈ l, ∀ v, parsedSuffix nodeName s = some v → v ≤ int64Max - 1 :=
      fun s hs => hB s (List.mem_cons_of_mem t hs)
    rw [hstepS, hstepM]
    rcases hp : parsedSuffix nodeName t with _ | v
    · have hS : startNumStep nodeName a t = a := by unfold startNumStep; rw [hp]
      have hM : maxSuffixStep nodeName (a - 1) t = a - 1 := by unfold maxSuffixStep; rw [hp]
      rw [hS, hM]
      exact ih a ha1 ha2 hBl
    · have hv : v ≤ int64Max - 1 := hB t (by simp) v hp
      by_cases hav : a ≤ v
      · have h1v : 1 ≤ v := le_trans ha1 hav
        have hwrap : wrap64 (v + 1) = v + 1 := by
          apply wrap64_eq_self
          · simp only [int64Min, int64Max] at *
            omega
          · simp only [int64Min, int64Max] at *
            omega
        have hS : startNumStep nodeName a t = v + 1 := by
          unfold startNumStep; rw [hp]; dsimp only; rw [if_pos hav, hwrap]
        have hM : maxSuffixStep nodeName (a - 1) t = v := by
          unfold maxSuffixStep; rw [hp]; dsimp only; rw [if_pos h1v]
          exact max_eq_right (by omega)
        rw [hS, hM]
        have := ih (v + 1) (by omega) (by simp only [int64Max] at *; omega) hBl
        rw [this]
        norm_num
      · have hS : startNumStep nodeName a t = a := by
          unfold startNumStep; rw [hp]; dsimp only; rw [if_neg hav]
        have hM : maxSuffixStep nodeName (a - 1) t = a - 1 := by
          unfold maxSuffixStep; rw [hp]; dsimp only
          split
          · exact max_eq_left (by omega)
          · rfl
        rw [hS, hM]
        exact ih a ha1 ha2 hBl

/-- `startNum` under the no-overflow condition: one more than the largest
positive parsed suffix. -/
theorem startNumGo_eq (l : List String) (nodeName : String)
    (hB : ∀ s ∈ l, ∀ v, parsedSuffix nodeName s = some v → v ≤ int64Max - 1) :
    startNumGo l nodeName = goMaxSuffix l nodeName + 1 := by
  unfold startNumGo goMaxSuffix
  have := startNum_fold_eq_maxSuffix nodeName l 1 (le_refl 1)
    (by simp only [int64Max]; omega) hB
  simpa using this

theorem goMaxSuffix_nonneg (l : List String) (nodeName : String) :
    0 ≤ goMaxSuffix l nodeName :=
  maxSuffix_fold_ge_acc nodeName l 0

/-- Entries whose suffix does not parse (or which lack the prefix) never
influence the `startNum` scan: filtering them away leaves it unchanged. -/
theorem startNum_fold_filter (nodeName : String) :
    ∀ (l : List String) (a : Int),
      (l.filter fun s => (parsedSuffix nodeName s).isSome).foldl (startNumStep nodeName) a
        = l.foldl (startNumStep nodeName) a := by
  intro l
  induction l with
  | nil => intro a; rfl
  | cons t l ih =>
    intro a
    by_cases hp : (parsedSuffix nodeName t).isSome
    · rw [List.filter_cons_of_pos (by simpa using hp)]
      exact ih (startNumStep nodeName a t)
    · rw [List.filter_cons_of_neg (by simpa using hp)]
      have hstep : startNumStep nodeName a t = a := by
        unfold startNumStep
        rcases h : parsedSuffix nodeName t with _ | v
        · rfl
        · rw [h] at hp; simp at hp
      rw [List.foldl_cons, hstep]
      exact ih a

theorem listStartsWith_append (p q : List Char) : listStartsWith p (p ++ q) = true := by
  induction p with
  | nil => rfl
  | cons c p ih => simp [listStartsWith, ih]

/-- A generated hostname `base-<v>` (for positive in-range `v`) parses back
to exactly `v` under the loop-body tests of `getNewHostnames`. -/
theorem parsedSuffix_self (base : String) (v : Int) (h1 : 1 ≤ v) (h2 : v ≤ int64Max) :
    parsedSuffix base (base ++ "-" ++ intRepr v) = some v := by
  unfold parsedSuffix
  have hdata : (base ++ "-" ++ intRepr v).data = (base ++ "-").data ++ (intRepr v).data :=
    String.data_append _ _
  simp only [hdata, listStartsWith_append, if_true, List.drop_left]
  have hpos : ¬ v < 0 := by omega
  have hrepr : intRepr v = natRepr v.toNat := by unfold intRepr; rw [if_neg hpos]
  rw [hrepr]
  have : ((v.toNat : Nat) : Int) = v := Int.toNat_of_nonneg (by omega)
  rw [goAtoi_natRepr (by rw [this]; exact h2), this]

theorem goMaxSuffix_le_of_sub (l l' : List String) (nodeName : String)
    (hsub : ∀ x ∈ l, x ∈ l') : goMaxSuffix l nodeName ≤ goMaxSuffix l' nodeName := by
  rcases maxSuffix_fold_cases nodeName l 0 with h | ⟨s, hs, v, hv, h1, hEq⟩
  · unfold goMaxSuffix
    rw [h]
    exact goMaxSuffix_nonneg l' nodeName
  · unfold goMaxSuffix
    rw [hEq]
    exact maxSuffix_fold_ge_parsed nodeName l' 0 s (hsub s hs) v hv h1

theorem goMaxSuffix_mem_congr (l l' : List String) (nodeName : String)
    (hmem : ∀ x, x ∈ l ↔ x ∈ l') : goMaxSuffix l nodeName = goMaxSuffix l' nodeName :=
  le_antisymm (goMaxSuffix_le_of_sub l l' nodeName fun x hx => (hmem x).mp hx)
    (goMaxSuffix_le_of_sub l' l nodeName fun x hx => (hmem x).mpr hx)

theorem str_data_inj {a b : String} (h : a.data = b.data) : a = b := by
  cases a
  cases b
  exact congrArg String.mk h

/-! ### Claims about the NodeNamer -/

/-- C4: when `count == 1` and `baseName` is not among the existing names,
`getNewHostnames` returns exactly `[baseName]`, verbatim. -/
theorem c4_single_unused_returns_base (l : List String) (base : String)
    (h : base ∉ l) : getNewHostnames l base 1 = [base] := by
  unfold getNewHostnames
  rw [if_neg (by omega : ¬ (1 : Int) < 1),
    if_pos ⟨rfl, fun hc => h (List.mem_of_elem_eq_true hc)⟩]

theorem c4_single_unused_returns_base_witness :
    getNewHostnames ["x"] "w" 1 = ["w"] :=
  c4_single_unused_returns_base ["x"] "w" (by decide)

/-- C6: a non-positive count yields the empty sequence, with no error. -/
theorem c6_nonpositive_count_empty (l : List String) (base : String) (c : Int)
    (h : c < 1) : getNewHostnames l base c = [] := by
  unfold getNewHostnames
  rw [if_pos h]

theorem c6_nonpositive_count_empty_witness : getNewHostnames ["w"] "w" 0 = [] :=
  c6_nonpositive_count_empty ["w"] "w" 0 (by decide)

/-- C2 fails as stated: with signed 64-bit overflow of `numSuffix + 1`,
a generated name can collide with an existing name.  Here the parsed
suffix 9223372036854775807 overflows the start of the series to
-9223372036854775808, reproducing the existing entry
`w--9223372036854775808`. -/
theorem c2_counterexample :
    getNewHostnames ["w--9223372036854775808", "w", "w-9223372036854775807"] "w" 1
      = ["w--9223372036854775808"]
    ∧ "w--9223372036854775808"
      ∈ ["w--9223372036854775808", "w", "w-9223372036854775807"] :=
  ⟨by decide, by decide⟩

/-- C2 (amended): provided no parsed suffix is large enough to overflow
(`v + count ≤ 2^63 - 1` for every parsed suffix value `v`, and
`count ≤ 2^63 - 1`), the returned names number exactly `count`, are
pairwise distinct, and avoid every existing name. -/
theorem c2_fresh_distinct_names (l : List String) (base : String) (c : Int)
    (hc1 : 1 ≤ c) (hc2 : c ≤ int64Max)
    (hB : ∀ s ∈ l, ∀ v, parsedSuffix base s = some v → v + c ≤ int64Max) :
    (getNewHostnames l base c).length = c.toNat
    ∧ (getNewHostnames l base c).Nodup
    ∧ ∀ g ∈ getNewHostnames l base c, g ∉ l := by
  unfold getNewHostnames
  rw [if_neg (by omega : ¬ c < 1)]
  by_cases hfast : c = 1 ∧ ¬ l.contains base = true
  · rw [if_pos hfast]
    refine ⟨by rw [hfast.1]; rfl, List.nodup_singleton _, ?_⟩
    intro g hg
    have hg' : g = base := by simpa using hg
    subst hg'
    exact fun hmem => hfast.2 (List.elem_eq_true_of_mem hmem)
  · rw [if_neg hfast]
    dsimp only
    have hB1 : ∀ s ∈ l, ∀ v, parsedSuffix base s = some v → v ≤ int64Max - 1 := by
      intro s hs v hv
      have := hB s hs v hv
      omega
    have hSN : startNumGo l base = goMaxSuffix l base + 1 := startNumGo_eq l base hB1
    have hM0 : 0 ≤ goMaxSuffix l base := goMaxSuffix_nonneg l base
    have hMc : goMaxSuffix l base + c ≤ int64Max := by
      rcases maxSuffix_fold_cases base l 0 with h0 | ⟨s, hs, v, hv, h1, hEq⟩
      · have hz : goMaxSuffix l base = 0 := h0
        omega
      · have hz : goMaxSuffix l base = v := hEq
        have := hB s hs v hv
        omega
    have hcast : ((c.toNat : Nat) : Int) = c := Int.toNat_of_nonneg (by omega)
    have hval : ∀ i : Nat, i < c.toNat →
        1 ≤ goMaxSuffix l base + 1 + (i : Int)
        ∧ goMaxSuffix l base + 1 + (i : Int) ≤ int64Max := by
      intro i hi
      have hic : (i : Int) < c := by
        rw [← hcast]
        exact_mod_cast hi
      omega
    have hmapeq :
        (List.range c.toNat).map
          (fun (i : Nat) => base ++ "-" ++ intRepr (wrap64 (startNumGo l base + (i : Int))))
        = (List.range c.toNat).map
          (fun (i : Nat) => base ++ "-" ++ intRepr (goMaxSuffix l base + 1 + (i : Int))) := by
      apply List.map_congr_left
      intro i hi
      rw [List.mem_range] at hi
      rcases hval i hi with ⟨hv1, hv2⟩
      rw [hSN]
      rw [wrap64_eq_self (by simp only [int64Min]; omega) hv2]
    rw [hmapeq]
    refine ⟨by simp, ?_, ?_⟩
    · refine List.Nodup.map_on ?_ (List.nodup_range _)
      intro i hi j hj hEq
      rw [List.mem_range] at hi hj
      rcases hval i hi with ⟨hi1, _⟩
      rcases hval j hj with ⟨hj1, _⟩
      have hdata := congrArg String.data hEq
      rw [String.data_append, String.data_append] at hdata
      have hrepr : intRepr (goMaxSuffix l base + 1 + (i : Int))
          = intRepr (goMaxSuffix l base + 1 + (j : Int)) :=
        str_data_inj (List.append_cancel_left hdata)
      unfold intRepr at hrepr
      rw [if_neg (by omega : ¬ goMaxSuffix l base + 1 + (i : Int) < 0),
        if_neg (by omega : ¬ goMaxSuffix l base + 1 + (j : Int) < 0)] at hrepr
      have htn := natRepr_inj hrepr
      have hi' := Int.toNat_of_nonneg (show 0 ≤ goMaxSuffix l base + 1 + (i : Int) by omega)
      have hj' := Int.toNat_of_nonneg (show 0 ≤ goMaxSuffix l base + 1 + (j : Int) by omega)
      have : goMaxSuffix l base + 1 + (i : Int) = goMaxSuffix l base + 1 + (j : Int) := by
        rw [← hi', ← hj', htn]
      omega
    · intro g hg hmem
      rcases List.mem_map.mp hg with ⟨i, hi, rfl⟩
      rw [List.mem_range] at hi
      rcases hval i hi with ⟨hv1, hv2⟩
      have hps := parsedSuffix_self base (goMaxSuffix l base + 1 + (i : Int)) hv1 hv2
      have hle := maxSuffix_fold_ge_parsed base l 0 _ hmem _ hps (by omega)
      have : goMaxSuffix l base + 1 + (i : Int) ≤ goMaxSuffix l base := hle
      omega

theorem c2_fresh_distinct_names_witness :
    (getNewHostnames ["w-3"] "w" 2).length = (2 : Int).toNat
    ∧ (getNewHostnames ["w-3"] "w" 2).Nodup
    ∧ ∀ g ∈ getNewHostnames ["w-3"] "w" 2, g ∉ ["w-3"] := by
  apply c2_fresh_distinct_names
  · norm_num
  · norm_num [int64Max]
  · intro s hs v hv
    have hs' : s = "w-3" := by simpa using hs
    subst hs'
    rw [show parsedSuffix "w" "w-3" = some 3 by decide] at hv
    injection hv with hv'
    rw [← hv']
    norm_num [int64Max]

/-- C3 fails as stated: the entry `w-+3` is not `baseName + "-" + n` for
any positive integer `n` (its suffix starts with a sign character), so the
claim's `maxSuffix` is 0 and the claim predicts `["w-1", "w-2"]`; but
`strconv.Atoi` accepts `"+3"` and the code returns `["w-4", "w-5"]`. -/
theorem c3_counterexample :
    (∀ n : Nat, 1 ≤ n → ("w" ++ "-" ++ natRepr n) ≠ "w-+3")
    ∧ getNewHostnames ["w-+3"] "w" 2 = ["w-4", "w-5"]
    ∧ getNewHostnames ["w-+3"] "w" 2 ≠ ["w-1", "w-2"] := by
  refine ⟨?_, by decide, by decide⟩
  intro n _ hEq
  have hdata := congrArg String.data hEq
  rw [String.data_append] at hdata
  have hw : ("w" ++ "-" : String).data = ['w', '-'] := by decide
  have h2 : ("w-+3" : String).data = ['w', '-'] ++ ['+', '3'] := by decide
  rw [hw, h2] at hdata
  have htail := List.append_cancel_left hdata
  exact plus_not_in_natRepr n (by rw [htail]; simp)

/-- C3 (amended): when the suffix path is taken and no parsed suffix can
overflow, the result is the `count` consecutive names starting one past
the largest value `strconv.Atoi` (optional sign, leading zeros admitted,
64-bit range) extracts from an existing entry's suffix after the exact,
case-sensitive `baseName + "-"` prefix. -/
theorem c3_consecutive_from_parsed_max (l : List String) (base : String) (c : Int)
    (hc1 : 1 ≤ c) (hc2 : c ≤ int64Max)
    (hpath : ¬(c = 1 ∧ ¬ l.contains base = true))
    (hB : ∀ s ∈ l, ∀ v, parsedSuffix base s = some v → v + c ≤ int64Max) :
    getNewHostnames l base c = (List.range c.toNat).map
      (fun (i : Nat) => base ++ "-" ++ intRepr (goMaxSuffix l base + 1 + (i : Int))) := by
  unfold getNewHostnames
  rw [if_neg (by omega : ¬ c < 1), if_neg hpath]
  dsimp only
  have hB1 : ∀ s ∈ l, ∀ v, parsedSuffix base s = some v → v ≤ int64Max - 1 := by
    intro s hs v hv
    have := hB s hs v hv
    omega
  have hSN : startNumGo l base = goMaxSuffix l base + 1 := startNumGo_eq l base hB1
  have hM0 : 0 ≤ goMaxSuffix l base := goMaxSuffix_nonneg l base
  have hMc : goMaxSuffix l base + c ≤ int64Max := by
    rcases maxSuffix_fold_cases base l 0 with h0 | ⟨s, hs, v, hv, h1, hEq⟩
    · have hz : goMaxSuffix l base = 0 := h0
      omega
    · have hz : goMaxSuffix l base = v := hEq
      have := hB s hs v hv
      omega
  have hcast : ((c.toNat : Nat) : Int) = c := Int.toNat_of_nonneg (by omega)
  apply List.map_congr_left
  intro i hi
  rw [List.mem_range] at hi
  have hic : (i : Int) < c := by
    rw [← hcast]
    exact_mod_cast hi
  rw [hSN, wrap64_eq_self (by simp only [int64Min]; omega) (by omega)]

theorem c3_consecutive_from_parsed_max_witness :
    goMaxSuffix ["w-1", "w-3"] "w" = 3
    ∧ getNewHostnames ["w-1", "w-3"] "w" 2 = ["w-4", "w-5"] := by
  constructor
  · decide
  · have h := c3_consecutive_from_parsed_max ["w-1", "w-3"] "w" 2 (by norm_num)
      (by norm_num [int64Max])
      (fun hq => absurd hq.1 (by norm_num))
      (by
        intro s hs v hv
        rcases (by simpa using hs : s = "w-1" ∨ s = "w-3") with rfl | rfl
        · rw [show parsedSuffix "w" "w-1" = some 1 by decide] at hv
          injection hv with h'
          simp only [int64Max]
          omega
        · rw [show parsedSuffix "w" "w-3" = some 3 by decide] at hv
          injection hv with h'
          simp only [int64Max]
          omega)
    rw [h]
    decide

/-- C5 fails as stated: the entry `w-+7` is not
`baseName + "-" + <well-formed positive integer>` (its suffix has a
non-digit sign character), yet it influences the `maxSuffix`/`startNum`
computation and thereby the result. -/
theorem c5_counterexample :
    (∀ n : Nat, 1 ≤ n → ("w" ++ "-" ++ natRepr n) ≠ "w-+7")
    ∧ startNumGo ["w-+7"] "w" = 8
    ∧ getNewHostnames ["w-+7"] "w" 2 ≠ getNewHostnames [] "w" 2 := by
  refine ⟨?_, by decide, by decide⟩
  intro n _ hEq
  have hdata := congrArg String.data hEq
  rw [String.data_append] at hdata
  have hw : ("w" ++ "-" : String).data = ['w', '-'] := by decide
  have h2 : ("w-+7" : String).data = ['w', '-'] ++ ['+', '7'] := by decide
  rw [hw, h2] at hdata
  have htail := List.append_cancel_left hdata
  exact plus_not_in_natRepr n (by rw [htail]; simp)

/-- C5 (amended): only entries carrying the exact, case-sensitive
`baseName + "-"` prefix whose remaining suffix `strconv.Atoi`-parses
(optional sign and leading zeros admitted, 64-bit range) influence the
`startNum`/`maxSuffix` scan: removing every other entry leaves the scan's
result unchanged. -/
theorem c5_only_parsed_entries_influence (l : List String) (base : String) :
    startNumGo (l.filter fun s => (parsedSuffix base s).isSome) base
      = startNumGo l base :=
  startNum_fold_filter base l 1

/-- C8 fails as stated: with 64-bit overflow the scan is order-sensitive,
so two permutations of the same names yield different results. -/
theorem c8_counterexample :
    ["w-9223372036854775807", "w--5"].Perm ["w--5", "w-9223372036854775807"]
    ∧ getNewHostnames ["w-9223372036854775807", "w--5"] "w" 2
      ≠ getNewHostnames ["w--5", "w-9223372036854775807"] "w" 2 := by
  constructor
  · exact List.Perm.swap _ _ _
  · decide

/-- C8 (amended): provided no parsed suffix can overflow the
`numSuffix + 1` update, the result depends on `existingNames` only
through membership, so it is invariant under permutation and
duplication of entries. -/
theorem c8_set_extensional (l l' : List String) (base : String) (c : Int)
    (hmem : ∀ x, x ∈ l ↔ x ∈ l')
    (hB : ∀ s ∈ l, ∀ v, parsedSuffix base s = some v → v ≤ int64Max - 1) :
    getNewHostnames l base c = getNewHostnames l' base c := by
  have hB' : ∀ s ∈ l', ∀ v, parsedSuffix base s = some v → v ≤ int64Max - 1 :=
    fun s hs => hB s ((hmem s).mpr hs)
  have hcont : l.contains base = l'.contains base := by
    by_cases h : base ∈ l
    · rw [show l.contains base = List.elem base l from rfl,
        show l'.contains base = List.elem base l' from rfl,
        List.elem_eq_true_of_mem h, List.elem_eq_true_of_mem ((hmem base).mp h)]
    · have h' : base ∉ l' := fun hx => h ((hmem base).mpr hx)
      have e1 : l.contains base = false := by
        cases hcb : l.contains base with
        | false => rfl
        | true => exact absurd (List.mem_of_elem_eq_true hcb) h
      have e2 : l'.contains base = false := by
        cases hcb : l'.contains base with
        | false => rfl
        | true => exact absurd (List.mem_of_elem_eq_true hcb) h'
      rw [e1, e2]
  unfold getNewHostnames
  rw [hcont]
  by_cases h1 : c < 1
  · rw [if_pos h1, if_pos h1]
  · rw [if_neg h1, if_neg h1]
    by_cases h2 : c = 1 ∧ ¬ l'.contains base = true
    · rw [if_pos h2, if_pos h2]
    · rw [if_neg h2, if_neg h2]
      dsimp only
      rw [startNumGo_eq l base hB, startNumGo_eq l' base hB',
        goMaxSuffix_mem_congr l l' base hmem]

theorem c8_set_extensional_witness :
    getNewHostnames ["w-2", "a"] "w" 2 = getNewHostnames ["a", "w-2", "w-2"] "w" 2 := by
  apply c8_set_extensional
  · intro x
    constructor <;> intro h <;> simp at h ⊢ <;> tauto
  · intro s hs v hv
    rcases (by simpa using hs : s = "w-2" ∨ s = "a") with rfl | rfl
    · rw [show parsedSuffix "w" "w-2" = some 2 by decide] at hv
      injection hv with h'
      simp only [int64Max]
      omega
    · rw [show parsedSuffix "w" "a" = (none : Option Int) by decide] at hv
      cases hv

/-! ### Externally visible actions of a provisioning run -/

/-- Events a run can perform against its collaborators, in order. -/
inductive Ev where
  | tempDirMk : Ev
  | fileWrite (path : String) (contents : List (Fin 256)) : Ev
  | shellRun (workingDir cmd : String) (args : List String) : Ev
  | dirRemove (dir : String) : Ev
  | stateAdd (key : String) : Ev
  | persist : Ev
  | netClientMk : Ev
  | computeClientMk : Ev
  | setModule (path : String) : Ev
  | commitCfg (clusterManagerName : String) : Ev
  deriving DecidableEq

/-- Serialized document bytes. -/
abbrev Bytes := List (Fin 256)

namespace Shell

/-- The only state operation the shell package uses is `state.Bytes()`. -/
structure TFState where
  bytes : Bytes

/-- Outcomes of the shell package's external collaborators.
`tempDir` is `ioutil.TempDir`, `writeFile` is `ioutil.WriteFile`,
`runShell` (working dir, command, args) is `shell.RunShellCommand`,
and the `tfBin*` fields are the viper `terraform-binary` lookup. -/
structure ShellEnv where
  tempDir : Except GoErr String
  writeFile : String → Bytes → Option GoErr
  runShell : String → String → List String → Option GoErr
  tfBinSet : Bool
  tfBin : String

/-- Embedding of `GetTerraformCmd` (src/unnamed/part_000). -/
def getTerraformCmd (env : ShellEnv) : String :=
  if env.tfBinSet then env.tfBin else "terraform"

/-- Embedding of `RunTerraformApplyWithState` (src/unnamed/part_000
lines 13-46), returning the trace of collaborator actions and the error
result. -/
def runTerraformApplyWithState (env : ShellEnv) (state : TFState) :
    List Ev × Option GoErr :=
  match env.tempDir with
  | .error e => ([], some e)
  | .ok tempDir =>
    let jsonPath := tempDir ++ "/" ++ "main.tf.json"
    match env.writeFile jsonPath state.bytes with
    | some e => ([Ev.tempDirMk, Ev.fileWrite jsonPath state.bytes, Ev.dirRemove tempDir],
        some e)
    | none =>
      let cmd := getTerraformCmd env
      match env.runShell tempDir cmd ["init", "-force-copy"] with
      | some e => ([Ev.tempDirMk, Ev.fileWrite jsonPath state.bytes,
          Ev.shellRun tempDir cmd ["init", "-force-copy"], Ev.dirRemove tempDir], some e)
      | none =>
        match env.runShell tempDir cmd ["apply", "-auto-approve"] with
        | some e => ([Ev.tempDirMk, Ev.fileWrite jsonPath state.bytes,
            Ev.shellRun tempDir cmd ["init", "-force-copy"],
            Ev.shellRun tempDir cmd ["apply", "-auto-approve"], Ev.dirRemove tempDir], some e)
        | none => ([Ev.tempDirMk, Ev.fileWrite jsonPath state.bytes,
            Ev.shellRun tempDir cmd ["init", "-force-copy"],
            Ev.shellRun tempDir cmd ["apply", "-auto-approve"], Ev.dirRemove tempDir], none)

/-- Embedding of `RunTerraformDestroyWithState` (src/unnamed/part_000
lines 48-82). -/
def runTerraformDestroyWithState (env : ShellEnv) (currentState : TFState)
    (args : List String) : List Ev × Option GoErr :=
  match env.tempDir with
  | .error e => ([], some e)
  | .ok tempDir =>
    let jsonPath := tempDir ++ "/" ++ "main.tf.json"
    match env.writeFile jsonPath currentState.bytes with
    | some e => ([Ev.tempDirMk, Ev.fileWrite jsonPath currentState.bytes,
        Ev.dirRemove tempDir], some e)
    | none =>
      let cmd := getTerraformCmd env
      match env.runShell tempDir cmd ["init", "-force-copy"] with
      | some e => ([Ev.tempDirMk, Ev.fileWrite jsonPath currentState.bytes,
          Ev.shellRun tempDir cmd ["init", "-force-copy"], Ev.dirRemove tempDir], some e)
      | none =>
        let allArgs := ["destroy", "-force"] ++ args
        match env.runShell tempDir cmd allArgs with
        | some e => ([Ev.tempDirMk, Ev.fileWrite jsonPath currentState.bytes,
            Ev.shellRun tempDir cmd ["init", "-force-copy"],
            Ev.shellRun tempDir cmd allArgs, Ev.dirRemove tempDir], some e)
        | none => ([Ev.tempDirMk, Ev.fileWrite jsonPath currentState.bytes,
            Ev.shellRun tempDir cmd ["init", "-force-copy"],
            Ev.shellRun tempDir cmd allArgs, Ev.dirRemove tempDir], none)

/-- The shell invocations of a trace, in order. -/
def shellEvs (tr : List Ev) : List Ev :=
  tr.filter fun e => match e with
    | Ev.shellRun _ _ _ => true
    | _ => false

/-- The file writes of a trace, in order. -/
def writeEvs (tr : List Ev) : List Ev :=
  tr.filter fun e => match e with
    | Ev.fileWrite _ _ => true
    | _ => false

end Shell

/-- C7: in every run of `RunTerraformApplyWithState` and
`RunTerraformDestroyWithState` the external tool is invoked first as
`init` and only afterwards as `apply` (respectively `destroy`), both
inside the scratch directory; `apply`/`destroy` is never invoked when
`init` fails; and the only file ever written is the scratch directory's
`main.tf.json`, holding exactly `state.Bytes()`. -/
theorem c7_init_first_in_scratch_dir (env : Shell.ShellEnv) (st : Shell.TFState)
    (args : List String) (d : String) (hd : env.tempDir = Except.ok d) :
    (Shell.shellEvs (Shell.runTerraformApplyWithState env st).1 = []
      ∨ Shell.shellEvs (Shell.runTerraformApplyWithState env st).1
          = [Ev.shellRun d (Shell.getTerraformCmd env) ["init", "-force-copy"]]
      ∨ Shell.shellEvs (Shell.runTerraformApplyWithState env st).1
          = [Ev.shellRun d (Shell.getTerraformCmd env) ["init", "-force-copy"],
             Ev.shellRun d (Shell.getTerraformCmd env) ["apply", "-auto-approve"]])
    ∧ Shell.writeEvs (Shell.runTerraformApplyWithState env st).1
        = [Ev.fileWrite (d ++ "/" ++ "main.tf.json") st.bytes]
    ∧ (∀ e, env.runShell d (Shell.getTerraformCmd env) ["init", "-force-copy"] = some e →
        Ev.shellRun d (Shell.getTerraformCmd env) ["apply", "-auto-approve"]
          ∉ (Shell.runTerraformApplyWithState env st).1)
    ∧ (Shell.shellEvs (Shell.runTerraformDestroyWithState env st args).1 = []
      ∨ Shell.shellEvs (Shell.runTerraformDestroyWithState env st args).1
          = [Ev.shellRun d (Shell.getTerraformCmd env) ["init", "-force-copy"]]
      ∨ Shell.shellEvs (Shell.runTerraformDestroyWithState env st args).1
          = [Ev.shellRun d (Shell.getTerraformCmd env) ["init", "-force-copy"],
             Ev.shellRun d (Shell.getTerraformCmd env) (["destroy", "-force"] ++ args)])
    ∧ Shell.writeEvs (Shell.runTerraformDestroyWithState env st args).1
        = [Ev.fileWrite (d ++ "/" ++ "main.tf.json") st.bytes]
    ∧ (∀ e, env.runShell d (Shell.getTerraformCmd env) ["init", "-force-copy"] = some e →
        Ev.shellRun d (Shell.getTerraformCmd env) (["destroy", "-force"] ++ args)
          ∉ (Shell.runTerraformDestroyWithState env st args).1) := by
  unfold Shell.runTerraformApplyWithState Shell.runTerraformDestroyWithState
  rw [hd]
  rcases hw : env.writeFile (d ++ "/" ++ "main.tf.json") st.bytes with _ | e
  · rcases hi : env.runShell d (Shell.getTerraformCmd env) ["init", "-force-copy"] with _ | e
    · rcases ha : env.runShell d (Shell.getTerraformCmd env) ["apply", "-auto-approve"]
        with _ | e
      · rcases hds : env.runShell d (Shell.getTerraformCmd env) ("destroy" :: "-force" :: args)
          with _ | e
        · simp [Shell.shellEvs, Shell.writeEvs, hw, hi, ha, hds]
        · simp [Shell.shellEvs, Shell.writeEvs, hw, hi, ha, hds]
      · rcases hds : env.runShell d (Shell.getTerraformCmd env) ("destroy" :: "-force" :: args)
          with _ | e
        · simp [Shell.shellEvs, Shell.writeEvs, hw, hi, ha, hds]
        · simp [Shell.shellEvs, Shell.writeEvs, hw, hi, ha, hds]
    · simp [Shell.shellEvs, Shell.writeEvs, hw, hi]
  · simp [Shell.shellEvs, Shell.writeEvs, hw]

/-- A concrete shell environment in which every collaborator succeeds. -/
def shellEnvOk : Shell.ShellEnv :=
  { tempDir := Except.ok "/tmp/tk"
    writeFile := fun _ _ => none
    runShell := fun _ _ _ => none
    tfBinSet := false
    tfBin := "" }

theorem c7_init_first_in_scratch_dir_witness :
    Shell.writeEvs (Shell.runTerraformApplyWithState shellEnvOk ⟨[]⟩).1
      = [Ev.fileWrite ("/tmp/tk" ++ "/" ++ "main.tf.json") []] :=
  (c7_init_first_in_scratch_dir shellEnvOk ⟨[]⟩ [] "/tmp/tk" rfl).2.1

namespace Part001

/-- The two fields of `baseNodeTerraformConfig` that `newTritonNode`
(src/unnamed/part_001) reads: `cfg.Hostname` and `cfg.NodeCount`.  The
rest of that record never influences control flow here and is left
abstract. -/
structure BaseNodeCfg where
  hostname : String
  nodeCount : Int

/-- The `tritonNodeTerraformConfig` record assembled by `newTritonNode`
(src/unnamed/part_001 lines 28-41). -/
structure TritonNodeCfg where
  base : BaseNodeCfg
  tritonAccount : String
  tritonKeyPath : String
  tritonKeyID : String
  tritonURL : String
  tritonNetworkNames : List String
  tritonImageName : String
  tritonImageVersion : String
  tritonSSHUser : String
  tritonMachinePackage : String

/-- Outcomes of every external collaborator `newTritonNode`
(src/unnamed/part_001) touches, in source order: base-config gathering,
`state.Get`, key-file read, SSH signer, Triton network/compute clients
and their list calls, viper lookups, prompt runs, `state.Nodes`,
`state.Add` (per module key), the scratch directory, the config write,
shell invocations, and `remoteBackend.PersistState`. -/
structure NodeEnv where
  baseConfig : Except GoErr BaseNodeCfg
  stateGet : String → String
  readFile : String → Except GoErr Bytes
  newSigner : Except GoErr Unit
  newNetworkClient : Except GoErr Unit
  listNetworks : Except GoErr (List String)
  viperIsSet : String → Bool
  viperGetString : String → String
  viperGetStringSlice : String → List String
  promptSelect : String → Except GoErr Nat
  promptString : String → Except GoErr String
  newComputeClient : Except GoErr Unit
  listImages : Except GoErr (List (String × String))
  listPackages : Except GoErr (List String)
  stateNodes : Except GoErr (List String)
  stateAddErr : String → Option GoErr
  stateBytes : Bytes
  tempDir : Except GoErr String
  writeFile : String → Bytes → Option GoErr
  runShell : String → String → List String → Option GoErr
  persistErr : Option GoErr

/-- The configuration-gathering phase of `newTritonNode`
(src/unnamed/part_001 lines 44-231): every step before the first
state-mutating or external-side-effect action, in source order, with the
early `return err` structure preserved. -/
def gatherCfg (selectedCluster : String) (env : NodeEnv) : Except GoErr TritonNodeCfg := do
  let baseConfig ← env.baseConfig
  let tritonAccount := env.stateGet ("module." ++ selectedCluster ++ ".triton_account")
  let tritonKeyPath := env.stateGet ("module." ++ selectedCluster ++ ".triton_key_path")
  let tritonKeyID := env.stateGet ("module." ++ selectedCluster ++ ".triton_key_id")
  let tritonURL := env.stateGet ("module." ++ selectedCluster ++ ".triton_url")
  let _keyMaterial ← env.readFile tritonKeyPath
  let _ ← env.newSigner
  let _ ← env.newNetworkClient
  let networks ← env.listNetworks
  let tritonNetworkNames ←
    if env.viperIsSet "triton_network_names" then
      let ns := env.viperGetStringSlice "triton_network_names"
      match ns.find? (fun n => !(networks.contains n)) with
      | some bad => Except.error ("Invalid Triton Network '" ++ bad
          ++ "', must be one of the following: " ++ String.intercalate ", " networks)
      | none => pure ns
    else do
      let i ← env.promptSelect "Triton Networks to attach"
      pure [networks.getD i ""]
  let _ ← env.newComputeClient
  let imagePair ←
    if env.viperIsSet "triton_image_name" && env.viperIsSet "triton_image_version" then
      pure (env.viperGetString "triton_image_name", env.viperGetString "triton_image_version")
    else do
      let images ← env.listImages
      let i ← env.promptSelect "Triton Image to use"
      pure (images.getD i ("", ""))
  let tritonSSHUser ←
    if env.viperIsSet "triton_ssh_user" then pure (env.viperGetString "triton_ssh_user")
    else env.promptString "Triton SSH User"
  let tritonMachinePackage ←
    if env.viperIsSet "triton_machine_package" then
      pure (env.viperGetString "triton_machine_package")
    else do
      let packages ← env.listPackages
      let kvmPackages := packages.filter fun p => strContainsSub p "kvm"
      let i ← env.promptSelect "Triton Machine Package to use for node"
      pure (kvmPackages.getD i "")
  pure { base := baseConfig
         tritonAccount := tritonAccount
         tritonKeyPath := tritonKeyPath
         tritonKeyID := tritonKeyID
         tritonURL := tritonURL
         tritonNetworkNames := tritonNetworkNames
         tritonImageName := imagePair.1
         tritonImageVersion := imagePair.2
         tritonSSHUser := tritonSSHUser
         tritonMachinePackage := tritonMachinePackage }

/-- The `state.Add` loop of `newTritonNode` (src/unnamed/part_001
lines 247-252): one `module.node_triton_<hostname>` upsert per new
hostname, returning the first error. -/
def addAll (env : NodeEnv) : List String → List Ev × Option GoErr
  | [] => ([], none)
  | k :: rest =>
    let key := "module.node_triton_" ++ k
    match env.stateAddErr key with
    | some e => ([Ev.stateAdd key], some e)
    | none =>
      let out := addAll env rest
      (Ev.stateAdd key :: out.1, out.2)

/-- Embedding of `newTritonNode` (src/unnamed/part_001 lines 43-292):
gather the configuration, read the existing node names, name and add the
new node modules, write the serialized document to a scratch directory,
run `terraform init` then `terraform apply` there, and persist through
the backend only after both succeed. -/
def newTritonNode (selectedClusterManager selectedCluster : String) (env : NodeEnv) :
    List Ev × Option GoErr :=
  match gatherCfg selectedCluster env with
  | .error e => ([], some e)
  | .ok cfg =>
    match env.stateNodes with
    | .error e => ([], some e)
    | .ok existingNames =>
      let newHostnames := getNewHostnames existingNames cfg.base.hostname cfg.base.nodeCount
      match addAll env newHostnames with
      | (tr, some e) => (tr, some e)
      | (tr, none) =>
        match env.tempDir with
        | .error e => (tr, some e)
        | .ok tempDir =>
          let jsonPath := tempDir ++ "/" ++ "main.tf.json"
          match env.writeFile jsonPath env.stateBytes with
          | some e => (tr ++ [Ev.tempDirMk, Ev.fileWrite jsonPath env.stateBytes,
              Ev.dirRemove tempDir], some e)
          | none =>
            match env.runShell tempDir "terraform" ["init", "-force-copy"] with
            | some e => (tr ++ [Ev.tempDirMk, Ev.fileWrite jsonPath env.stateBytes,
                Ev.shellRun tempDir "terraform" ["init", "-force-copy"],
                Ev.dirRemove tempDir], some e)
            | none =>
              match env.runShell tempDir "terraform" ["apply", "-auto-approve"] with
              | some e => (tr ++ [Ev.tempDirMk, Ev.fileWrite jsonPath env.stateBytes,
                  Ev.shellRun tempDir "terraform" ["init", "-force-copy"],
                  Ev.shellRun tempDir "terraform" ["apply", "-auto-approve"],
                  Ev.dirRemove tempDir], some e)
              | none => (tr ++ [Ev.tempDirMk, Ev.fileWrite jsonPath env.stateBytes,
                  Ev.shellRun tempDir "terraform" ["init", "-force-copy"],
                  Ev.shellRun tempDir "terraform" ["apply", "-auto-approve"],
                  Ev.persist, Ev.dirRemove tempDir], env.persistErr)

theorem addAll_evs (env : NodeEnv) :
    ∀ (l : List String), ∀ e ∈ (addAll env l).1, ∃ k, e = Ev.stateAdd k := by
  intro l
  induction l with
  | nil => intro e he; simp [addAll] at he
  | cons k rest ih =>
    intro e he
    unfold addAll at he
    dsimp only at he
    rcases h : env.stateAddErr ("module.node_triton_" ++ k) with _ | err
    · rw [h] at he
      dsimp only at he
      rcases List.mem_cons.mp he with rfl | he
      · exact ⟨"module.node_triton_" ++ k, rfl⟩
      · exact ih e he
    · rw [h] at he
      dsimp only at he
      rcases List.mem_cons.mp he with rfl | he
      · exact ⟨"module.node_triton_" ++ k, rfl⟩
      · simp at he

end Part001

namespace NodeTriton

/-- `rancherHostLabelsConfig` as set by the host-label switch of
src/create/node_triton.go lines 106-115. -/
structure RancherHostLabels where
  compute : String
  etcd : String
  orchestration : String
  deriving DecidableEq

/-- The `tritonNodeTerraformConfig` record of src/create/node_triton.go
lines 25-54. -/
structure NodeBCfg where
  source : String
  hostname : String
  rancherAPIURL : String
  rancherAccessKey : String
  rancherSecretKey : String
  rancherEnvironmentID : String
  rancherHostLabels : RancherHostLabels
  tritonAccount : String
  tritonKeyPath : String
  tritonKeyID : String
  tritonURL : String
  tritonNetworkNames : List String
  tritonImageName : String
  tritonImageVersion : String
  tritonSSHUser : String
  tritonMachinePackage : String
  rancherRegistry : String
  rancherRegistryUsername : String
  rancherRegistryPassword : String
  deriving DecidableEq

/-- Outcomes of the external collaborators of `newTritonNode`
(src/create/node_triton.go): viper lookups, prompt runs, key-file read,
SSH signer, cloud clients and their list calls, the Manta-backed
`GetTerraformConfig`/`CommitTerraformConfig` pair, the gabs JSON
container (`parseJSON`/`setP`/`render`, the container carried as its
text), the scratch directory, the config write and shell invocations. -/
structure NodeBEnv where
  viperIsSet : String → Bool
  viperGetString : String → String
  viperGetStringSlice : String → List String
  promptSelect : String → Except GoErr Nat
  promptString : String → Except GoErr String
  readFile : String → Except GoErr Bytes
  newSigner : Except GoErr Unit
  newNetworkClient : Except GoErr Unit
  listNetworks : Except GoErr (List String)
  newComputeClient : Except GoErr Unit
  listImages : Except GoErr (List (String × String))
  listPackages : Except GoErr (List String)
  getTerraformConfig : String → Except GoErr Bytes
  parseJSON : Bytes → Except GoErr String
  setP : String → String → NodeBCfg → String
  render : String → Bytes
  tempDir : Except GoErr String
  writeFile : String → Bytes → Option GoErr
  runShell : String → String → List String → Option GoErr
  commitErr : String → Option GoErr

/-- The host-label resolution of src/create/node_triton.go lines 84-104:
the viper value when set, otherwise the prompted choice among
`compute`/`etcd`/`orchestration`. -/
def resolveHostLabel (env : NodeBEnv) : Except GoErr String :=
  if env.viperIsSet "rancher_host_label" then
    Except.ok (env.viperGetString "rancher_host_label")
  else do
    let i ← env.promptSelect "Which type of node?"
    pure (["compute", "etcd", "orchestration"].getD i "")

/-- The hostname resolution of src/create/node_triton.go lines 120-132:
the viper value when set, otherwise the prompt result. -/
def resolveHostname (env : NodeBEnv) : Except GoErr String :=
  if env.viperIsSet "hostname" then Except.ok (env.viperGetString "hostname")
  else env.promptString "Hostname"

/-- Embedding of `newTritonNode` (src/create/node_triton.go lines 56-408).
Cloud-client creations, the module insertion (`SetP`), the scratch
directory, the file write, the shell invocations and the backend commit
appear as trace events, in source order. -/
def newTritonNode (selectedClusterManager selectedCluster : String)
    (tritonAccount tritonKeyPath tritonKeyID tritonURL mantaURL : String)
    (env : NodeBEnv) : List Ev × Option GoErr :=
  let baseSource :=
    if env.viperIsSet "source_url" then env.viperGetString "source_url"
    else "github.com/joyent/triton-kubernetes"
  let source := baseSource ++ "//terraform/modules/triton-rancher-k8s-host"
  let rancherAPIURL := "http://$\x7belement(module.cluster-manager.masters, 0)\x7d:8080"
  let rancherEnvironmentID := "$\x7bmodule." ++ selectedCluster ++ ".rancher_environment_id\x7d"
  match resolveHostLabel env with
  | .error e => ([], some e)
  | .ok selectedHostLabel =>
    let hostLabels : Option RancherHostLabels :=
      if selectedHostLabel = "compute" then some ⟨"true", "", ""⟩
      else if selectedHostLabel = "etcd" then some ⟨"", "true", ""⟩
      else if selectedHostLabel = "orchestration" then some ⟨"", "", "true"⟩
      else none
    match hostLabels with
    | none => ([], some ("Invalid rancher_host_label '" ++ selectedHostLabel
        ++ "', must be 'compute', 'etcd' or 'orchestration'"))
    | some rancherHostLabels =>
      match resolveHostname env with
      | .error e => ([], some e)
      | .ok hostname =>
        if hostname = "" then ([], some "Invalid Hostname")
        else
          match env.readFile tritonKeyPath with
          | .error e => ([], some e)
          | .ok _ =>
            match env.newSigner with
            | .error e => ([], some e)
            | .ok _ =>
              match env.newNetworkClient with
              | .error e => ([Ev.netClientMk], some e)
              | .ok _ =>
                let networkStep : Except GoErr (List String) :=
                  if env.viperIsSet "triton_network_names" then
                    Except.ok (env.viperGetStringSlice "triton_network_names")
                  else do
                    let networks ← env.listNetworks
                    let i ← env.promptSelect "Triton Networks to attach"
                    pure [networks.getD i ""]
                match networkStep with
                | .error e => ([Ev.netClientMk], some e)
                | .ok tritonNetworkNames =>
                  match env.newComputeClient with
                  | .error e => ([Ev.netClientMk, Ev.computeClientMk], some e)
                  | .ok _ =>
                    let imageStep : Except GoErr (String × String) :=
                      if env.viperIsSet "triton_image_name"
                          && env.viperIsSet "triton_image_version" then
                        Except.ok (env.viperGetString "triton_image_name",
                          env.viperGetString "triton_image_version")
                      else do
                        let images ← env.listImages
                        let i ← env.promptSelect "Triton Image to use"
                        pure (images.getD i ("", ""))
                    match imageStep with
                    | .error e => ([Ev.netClientMk, Ev.computeClientMk], some e)
                    | .ok imagePair =>
                      let sshStep : Except GoErr String :=
                        if env.viperIsSet "triton_ssh_user" then
                          Except.ok (env.viperGetString "triton_ssh_user")
                        else env.promptString "Triton SSH User"
                      match sshStep with
                      | .error e => ([Ev.netClientMk, Ev.computeClientMk], some e)
                      | .ok tritonSSHUser =>
                        let packageStep : Except GoErr String :=
                          if env.viperIsSet "triton_machine_package" then
                            Except.ok (env.viperGetString "triton_machine_package")
                          else do
                            let packages ← env.listPackages
                            let kvmPackages :=
                              packages.filter fun p => strContainsSub p "kvm"
                            let i ← env.promptSelect
                              "Triton Machine Package to use for node"
                            pure (kvmPackages.getD i "")
                        match packageStep with
                        | .error e => ([Ev.netClientMk, Ev.computeClientMk], some e)
                        | .ok tritonMachinePackage =>
                          let registryStep : Except GoErr String :=
                            if env.viperIsSet "rancher_registry" then
                              Except.ok (env.viperGetString "rancher_registry")
                            else do
                              let r ← env.promptString "Rancher Registry"
                              pure (if r ≠ "None" then r else "")
                          match registryStep with
                          | .error e => ([Ev.netClientMk, Ev.computeClientMk], some e)
                          | .ok rancherRegistry =>
                            let userStep : Except GoErr String :=
                              if rancherRegistry ≠ "" then
                                if env.viperIsSet "rancher_registry_username" then
                                  Except.ok (env.viperGetString "rancher_registry_username")
                                else env.promptString "Rancher Registry Username"
                              else Except.ok ""
                            match userStep with
                            | .error e => ([Ev.netClientMk, Ev.computeClientMk], some e)
                            | .ok rancherRegistryUsername =>
                              let passStep : Except GoErr String :=
                                if rancherRegistry ≠ "" then
                                  if env.viperIsSet "rancher_registry_password" then
                                    Except.ok (env.viperGetString "rancher_registry_password")
                                  else env.promptString "Rancher Registry Password"
                                else Except.ok ""
                              match passStep with
                              | .error e => ([Ev.netClientMk, Ev.computeClientMk], some e)
                              | .ok rancherRegistryPassword =>
                                let cfg : NodeBCfg :=
                                  { source := source
                                    hostname := hostname
                                    rancherAPIURL := rancherAPIURL
                                    rancherAccessKey := ""
                                    rancherSecretKey := ""
                                    rancherEnvironmentID := rancherEnvironmentID
                                    rancherHostLabels := rancherHostLabels
                                    tritonAccount := tritonAccount
                                    tritonKeyPath := tritonKeyPath
                                    tritonKeyID := tritonKeyID
                                    tritonURL := tritonURL
                                    tritonNetworkNames := tritonNetworkNames
                                    tritonImageName := imagePair.1
                                    tritonImageVersion := imagePair.2
                                    tritonSSHUser := tritonSSHUser
                                    tritonMachinePackage := tritonMachinePackage
                                    rancherRegistry := rancherRegistry
                                    rancherRegistryUsername := rancherRegistryUsername
                                    rancherRegistryPassword := rancherRegistryPassword }
                                match env.getTerraformConfig selectedClusterManager with
                                | .error e => ([Ev.netClientMk, Ev.computeClientMk], some e)
                                | .ok cfgBytes =>
                                  match env.parseJSON cfgBytes with
                                  | .error e =>
                                    ([Ev.netClientMk, Ev.computeClientMk], some e)
                                  | .ok doc =>
                                    let nodeKey := "node_triton_" ++ hostname
                                    let modPath := "module." ++ nodeKey
                                    let doc2 := env.setP doc modPath cfg
                                    let jsonBytes := env.render doc2
                                    let evs0 := [Ev.netClientMk, Ev.computeClientMk,
                                      Ev.setModule modPath]
                                    match env.tempDir with
                                    | .error e => (evs0, some e)
                                    | .ok tempDir =>
                                      let jsonPath := tempDir ++ "/" ++ "main.tf.json"
                                      match env.writeFile jsonPath jsonBytes with
                                      | some e => (evs0 ++ [Ev.tempDirMk,
                                          Ev.fileWrite jsonPath jsonBytes,
                                          Ev.dirRemove tempDir], some e)
                                      | none =>
                                        match env.runShell tempDir "terraform"
                                            ["init", "-force-copy"] with
                                        | some e => (evs0 ++ [Ev.tempDirMk,
                                            Ev.fileWrite jsonPath jsonBytes,
                                            Ev.shellRun tempDir "terraform"
                                              ["init", "-force-copy"],
                                            Ev.dirRemove tempDir], some e)
                                        | none =>
                                          match env.runShell tempDir "terraform"
                                              ["apply", "-auto-approve"] with
                                          | some e => (evs0 ++ [Ev.tempDirMk,
                                              Ev.fileWrite jsonPath jsonBytes,
                                              Ev.shellRun tempDir "terraform"
                                                ["init", "-force-copy"],
                                              Ev.shellRun tempDir "terraform"
                                                ["apply", "-auto-approve"],
                                              Ev.dirRemove tempDir], some e)
                                          | none => (evs0 ++ [Ev.tempDirMk,
                                              Ev.fileWrite jsonPath jsonBytes,
                                              Ev.shellRun tempDir "terraform"
                                                ["init", "-force-copy"],
                                              Ev.shellRun tempDir "terraform"
                                                ["apply", "-auto-approve"],
                                              Ev.commitCfg selectedClusterManager,
                                              Ev.dirRemove tempDir],
                                            env.commitErr selectedClusterManager)

end NodeTriton

/-- C10: in the node_triton.go variant of `newTritonNode`, once the host
label has resolved to a valid value, an empty resolved hostname makes the
function return the error `Invalid Hostname` with an empty action trace:
no cloud client is created, no module is added, and neither the external
tool nor the backend commit is ever invoked. -/
theorem c10_empty_hostname_rejected_early
    (scm sc ta tkp tki tu mu : String) (env : NodeTriton.NodeBEnv) (lbl : String)
    (hl : NodeTriton.resolveHostLabel env = Except.ok lbl)
    (hv : lbl = "compute" ∨ lbl = "etcd" ∨ lbl = "orchestration")
    (hh : NodeTriton.resolveHostname env = Except.ok "") :
    NodeTriton.newTritonNode scm sc ta tkp tki tu mu env
      = ([], some "Invalid Hostname") := by
  unfold NodeTriton.newTritonNode
  rw [hl]
  rcases hv with rfl | rfl | rfl <;> simp [hh]

/-- A concrete environment whose viper config carries a valid host label
and an empty hostname. -/
def envC10 : NodeTriton.NodeBEnv :=
  { viperIsSet := fun k => k == "rancher_host_label" || k == "hostname"
    viperGetString := fun k => if k = "rancher_host_label" then "compute" else ""
    viperGetStringSlice := fun _ => []
    promptSelect := fun _ => Except.ok 0
    promptString := fun _ => Except.ok ""
    readFile := fun _ => Except.ok []
    newSigner := Except.ok ()
    newNetworkClient := Except.ok ()
    listNetworks := Except.ok []
    newComputeClient := Except.ok ()
    listImages := Except.ok []
    listPackages := Except.ok []
    getTerraformConfig := fun _ => Except.ok []
    parseJSON := fun _ => Except.ok ""
    setP := fun d _ _ => d
    render := fun _ => []
    tempDir := Except.ok "/tmp/tk"
    writeFile := fun _ _ => none
    runShell := fun _ _ _ => none
    commitErr := fun _ => none }

theorem c10_empty_hostname_rejected_early_witness :
    NodeTriton.newTritonNode "mgr" "cl" "acct" "key" "id" "url" "manta" envC10
      = ([], some "Invalid Hostname") :=
  c10_empty_hostname_rejected_early "mgr" "cl" "acct" "key" "id" "url" "manta" envC10
    "compute" rfl (Or.inl rfl) rfl

/-- The node_triton.go variant's commit discipline: if `terraform init`
or `terraform apply` fails, that error is returned and
`CommitTerraformConfig` is never invoked; the commit action occurs only
in runs where both init and apply succeeded. -/
theorem nodeTriton_commit_only_after_apply
    (scm sc ta tkp tki tu mu : String) (envB : NodeTriton.NodeBEnv) (dB : String)
    (hdB : envB.tempDir = Except.ok dB) :
    (∀ e, envB.runShell dB "terraform" ["init", "-force-copy"] = some e →
      Ev.shellRun dB "terraform" ["init", "-force-copy"]
          ∈ (NodeTriton.newTritonNode scm sc ta tkp tki tu mu envB).1 →
      (NodeTriton.newTritonNode scm sc ta tkp tki tu mu envB).2 = some e
        ∧ Ev.commitCfg scm ∉ (NodeTriton.newTritonNode scm sc ta tkp tki tu mu envB).1)
    ∧ (∀ e, envB.runShell dB "terraform" ["apply", "-auto-approve"] = some e →
      Ev.shellRun dB "terraform" ["apply", "-auto-approve"]
          ∈ (NodeTriton.newTritonNode scm sc ta tkp tki tu mu envB).1 →
      (NodeTriton.newTritonNode scm sc ta tkp tki tu mu envB).2 = some e
        ∧ Ev.commitCfg scm ∉ (NodeTriton.newTritonNode scm sc ta tkp tki tu mu envB).1)
    ∧ (Ev.commitCfg scm ∈ (NodeTriton.newTritonNode scm sc ta tkp tki tu mu envB).1 →
      envB.runShell dB "terraform" ["init", "-force-copy"] = none
      ∧ envB.runShell dB "terraform" ["apply", "-auto-approve"] = none) := by
  unfold NodeTriton.newTritonNode
  rw [hdB]
  dsimp only
  repeat' split
  all_goals refine ⟨?_, ?_, ?_⟩
  all_goals first
    | (intro e' he hmem; simp at hmem; done)
    | (intro e' he hmem; refine ⟨?_, ?_⟩; rw [← he]; symm; assumption; simp; done)
    | (intro e' he hmem; simp_all; done)
    | (intro hmem; simp at hmem; done)
    | (intro hmem; refine ⟨?_, ?_⟩; assumption; assumption; done)

/-- C1: in every run of a node-provisioning operation (`newTritonNode`
in src/unnamed/part_001 and its src/create/node_triton.go variant) in
which the external apply step fails (`terraform init` or
`terraform apply` returns an error), the function returns that error and
the backend persist call (`PersistState` / `CommitTerraformConfig`) is
never invoked; the persist/commit action occurs only in runs where both
init and apply succeeded. -/
theorem c1_persist_only_after_successful_apply
    (scm sc : String) (env : Part001.NodeEnv) (d : String)
    (hd : env.tempDir = Except.ok d)
    (ta tkp tki tu mu : String) (envB : NodeTriton.NodeBEnv) (dB : String)
    (hdB : envB.tempDir = Except.ok dB) :
    ((∀ e, env.runShell d "terraform" ["init", "-force-copy"] = some e →
      Ev.shellRun d "terraform" ["init", "-force-copy"]
          ∈ (Part001.newTritonNode scm sc env).1 →
      (Part001.newTritonNode scm sc env).2 = some e
        ∧ Ev.persist ∉ (Part001.newTritonNode scm sc env).1)
    ∧ (∀ e, env.runShell d "terraform" ["apply", "-auto-approve"] = some e →
      Ev.shellRun d "terraform" ["apply", "-auto-approve"]
          ∈ (Part001.newTritonNode scm sc env).1 →
      (Part001.newTritonNode scm sc env).2 = some e
        ∧ Ev.persist ∉ (Part001.newTritonNode scm sc env).1)
    ∧ (Ev.persist ∈ (Part001.newTritonNode scm sc env).1 →
      env.runShell d "terraform" ["init", "-force-copy"] = none
      ∧ env.runShell d "terraform" ["apply", "-auto-approve"] = none))
    ∧ ((∀ e, envB.runShell dB "terraform" ["init", "-force-copy"] = some e →
      Ev.shellRun dB "terraform" ["init", "-force-copy"]
          ∈ (NodeTriton.newTritonNode scm sc ta tkp tki tu mu envB).1 →
      (NodeTriton.newTritonNode scm sc ta tkp tki tu mu envB).2 = some e
        ∧ Ev.commitCfg scm ∉ (NodeTriton.newTritonNode scm sc ta tkp tki tu mu envB).1)
    ∧ (∀ e, envB.runShell dB "terraform" ["apply", "-auto-approve"] = some e →
      Ev.shellRun dB "terraform" ["apply", "-auto-approve"]
          ∈ (NodeTriton.newTritonNode scm sc ta tkp tki tu mu envB).1 →
      (NodeTriton.newTritonNode scm sc ta tkp tki tu mu envB).2 = some e
        ∧ Ev.commitCfg scm ∉ (NodeTriton.newTritonNode scm sc ta tkp tki tu mu envB).1)
    ∧ (Ev.commitCfg scm ∈ (NodeTriton.newTritonNode scm sc ta tkp tki tu mu envB).1 →
      envB.runShell dB "terraform" ["init", "-force-copy"] = none
      ∧ envB.runShell dB "terraform" ["apply", "-auto-approve"] = none)) := by
  constructor
  ·
    unfold Part001.newTritonNode
    rcases hg : Part001.gatherCfg sc env with e | cfg
    · refine ⟨?_, ?_, ?_⟩ <;> simp
    · rcases hn : env.stateNodes with e | existingNames
      · refine ⟨?_, ?_, ?_⟩ <;> simp
      · dsimp only
        rcases hA : Part001.addAll env
          (getNewHostnames existingNames cfg.base.hostname cfg.base.nodeCount) with ⟨tr, r⟩
        have htr : ∀ ev ∈ tr, ∃ k, ev = Ev.stateAdd k := by
          intro ev hv
          exact Part001.addAll_evs env _ ev (by rw [hA]; exact hv)
        have hpers : Ev.persist ∉ tr := by
          intro h
          rcases htr _ h with ⟨k, hk⟩
          cases hk
        have hinit : Ev.shellRun d "terraform" ["init", "-force-copy"] ∉ tr := by
          intro h
          rcases htr _ h with ⟨k, hk⟩
          cases hk
        have happ : Ev.shellRun d "terraform" ["apply", "-auto-approve"] ∉ tr := by
          intro h
          rcases htr _ h with ⟨k, hk⟩
          cases hk
        rcases r with _ | e
        · rw [hd]
          dsimp only
          rcases hw : env.writeFile (d ++ "/" ++ "main.tf.json") env.stateBytes with _ | e
          · rcases hi : env.runShell d "terraform" ["init", "-force-copy"] with _ | e
            · rcases ha : env.runShell d "terraform" ["apply", "-auto-approve"] with _ | e
              · dsimp only
                refine ⟨?_, ?_, ?_⟩
                · intro e' he _
                  cases he
                · intro e' he _
                  cases he
                · intro _
                  exact ⟨rfl, rfl⟩
              · dsimp only
                refine ⟨?_, ?_, ?_⟩
                · intro e' he _
                  cases he
                · intro e' he _
                  injection he with he'
                  subst he'
                  refine ⟨rfl, ?_⟩
                  simp [List.mem_append, hpers]
                · intro hmem
                  simp [List.mem_append, hpers] at hmem
            · dsimp only
              refine ⟨?_, ?_, ?_⟩
              · intro e' he _
                injection he with he'
                subst he'
                refine ⟨rfl, ?_⟩
                simp [List.mem_append, hpers]
              · intro e' he hmem
                simp [List.mem_append, happ] at hmem
              · intro hmem
                simp [List.mem_append, hpers] at hmem
          · dsimp only
            refine ⟨?_, ?_, ?_⟩
            · intro e' he hmem
              simp [List.mem_append, hinit] at hmem
            · intro e' he hmem
              simp [List.mem_append, happ] at hmem
            · intro hmem
              simp [List.mem_append, hpers] at hmem
        · dsimp only
          refine ⟨?_, ?_, ?_⟩
          · intro e' he hmem
            exact absurd hmem hinit
          · intro e' he hmem
            exact absurd hmem happ
          · intro hmem
            exact absurd hmem hpers
  · exact nodeTriton_commit_only_after_apply scm sc ta tkp tki tu mu envB dB hdB

/-- A concrete environment for the part_001 node creation in which every
collaborator succeeds except `terraform init`. -/
def envC1 : Part001.NodeEnv :=
  { baseConfig := Except.ok ⟨"node", 1⟩
    stateGet := fun _ => ""
    readFile := fun _ => Except.ok []
    newSigner := Except.ok ()
    newNetworkClient := Except.ok ()
    listNetworks := Except.ok ["net0"]
    viperIsSet := fun _ => true
    viperGetString := fun _ => "x"
    viperGetStringSlice := fun _ => ["net0"]
    promptSelect := fun _ => Except.ok 0
    promptString := fun _ => Except.ok "root"
    newComputeClient := Except.ok ()
    listImages := Except.ok [("img", "1")]
    listPackages := Except.ok ["kvm-1"]
    stateNodes := Except.ok []
    stateAddErr := fun _ => none
    stateBytes := []
    tempDir := Except.ok "/tmp/tk"
    writeFile := fun _ _ => none
    runShell := fun _ _ args => if args = ["init", "-force-copy"] then some "boom" else none
    persistErr := none }

/-- A concrete environment for the node_triton.go node creation in which
every collaborator succeeds except `terraform init`. -/
def envC1B : NodeTriton.NodeBEnv :=
  { viperIsSet := fun _ => true
    viperGetString := fun k => if k = "rancher_host_label" then "compute" else "x"
    viperGetStringSlice := fun _ => ["net0"]
    promptSelect := fun _ => Except.ok 0
    promptString := fun _ => Except.ok "root"
    readFile := fun _ => Except.ok []
    newSigner := Except.ok ()
    newNetworkClient := Except.ok ()
    listNetworks := Except.ok ["net0"]
    newComputeClient := Except.ok ()
    listImages := Except.ok [("img", "1")]
    listPackages := Except.ok ["kvm-1"]
    getTerraformConfig := fun _ => Except.ok []
    parseJSON := fun _ => Except.ok ""
    setP := fun doc _ _ => doc
    render := fun _ => []
    tempDir := Except.ok "/tmp/tk"
    writeFile := fun _ _ => none
    runShell := fun _ _ args => if args = ["init", "-force-copy"] then some "boomB" else none
    commitErr := fun _ => none }

theorem c1_persist_only_after_successful_apply_witness :
    ((Part001.newTritonNode "mgr" "cl" envC1).2 = some "boom"
      ∧ Ev.persist ∉ (Part001.newTritonNode "mgr" "cl" envC1).1)
    ∧ ((NodeTriton.newTritonNode "mgr" "cl" "acct" "key" "id" "url" "manta" envC1B).2
        = some "boomB"
      ∧ Ev.commitCfg "mgr"
          ∉ (NodeTriton.newTritonNode "mgr" "cl" "acct" "key" "id" "url" "manta" envC1B).1) :=
  ⟨(c1_persist_only_after_successful_apply "mgr" "cl" envC1 "/tmp/tk" rfl
      "acct" "key" "id" "url" "manta" envC1B "/tmp/tk" rfl).1.1 "boom"
    (by decide) (by decide),
   (c1_persist_only_after_successful_apply "mgr" "cl" envC1 "/tmp/tk" rfl
      "acct" "key" "id" "url" "manta" envC1B "/tmp/tk" rfl).2.1 "boomB"
    (by decide) (by decide)⟩

namespace ManagerAzure

/-- The base manager configuration returned by
`getBaseManagerTerraformConfig(azureRancherTerraformModulePath, name)`;
its contents never influence control flow in `newAzureManager` and are
kept abstract behind the two arguments it is built from. -/
structure BaseMgrCfg where
  modulePath : String
  name : String

/-- The two endpoints of the Azure SDK environment record that
`newAzureManager` reads. -/
structure AzureEnvRec where
  activeDirectoryEndpoint : String
  resourceManagerEndpoint : String

/-- The `azureManagerTerraformConfig` record of
src/create/manager_azure.go lines 27-47. -/
structure AzureMgrCfg where
  base : BaseMgrCfg
  azureSubscriptionID : String
  azureClientID : String
  azureClientSecret : String
  azureTenantID : String
  azureEnvironment : String
  azureLocation : String
  azureResourceGroupName : String
  azureSize : String
  azureImagePublisher : String
  azureImageOffer : String
  azureImageSKU : String
  azureImageVersion : String
  azureSSHUser : String
  azurePublicKeyPath : String
  azurePrivateKeyPath : String

/-- The state document handed to `newAzureManager`; only the `state`
package's `SetManager` ever touches it, which the environment supplies
as an opaque update function. -/
structure AzState where
  doc : String
  deriving DecidableEq

/-- Outcomes of the external collaborators of `newAzureManager`
(src/create/manager_azure.go): viper lookups, prompt/select runs (by
label), the Azure SDK environment lookup, OAuth config, service
principal token, location and VM-size listings, `homedir.Expand`, and
the `state.SetManager` update. -/
structure AzEnv where
  nonInteractive : Bool
  baseManagerConfig : Except GoErr BaseMgrCfg
  viperIsSet : String → Bool
  viperGetString : String → String
  promptString : String → Except GoErr String
  promptSelectVal : String → Except GoErr String
  envFromName : String → Except GoErr AzureEnvRec
  newOAuthConfig : Except GoErr Unit
  newSPT : Except GoErr Unit
  listLocations : Except GoErr (List String)
  listVMSizes : String → Except GoErr (List String)
  homedirExpand : String → Except GoErr String
  setManager : AzState → AzureMgrCfg → AzState

/-- `strings.Replace(strings.ToLower(s), " ", "", -1)` as used for the
VM-size listing argument. -/
def strNormalize (s : String) : String :=
  String.mk ((s.data.map Char.toLower).filter fun c => c ≠ ' ')

/-- The Go early-return pattern `v, err := f(...); if err != nil { return err }`
with the untouched state document threaded through. -/
def stepOr {α : Type} (st : AzState) (x : Except GoErr α)
    (k : α → AzState × Option GoErr) : AzState × Option GoErr :=
  match x with
  | .error e => (st, some e)
  | .ok a => k a

/-- The `Azure Subscription ID` block (src/create/manager_azure.go
lines 61-82): viper value, or a hard error in non-interactive mode, or a
prompt. -/
def subStep (env : AzEnv) : Except GoErr String :=
  if env.viperIsSet "azure_subscription_id" then
    Except.ok (env.viperGetString "azure_subscription_id")
  else if env.nonInteractive then Except.error "azure_subscription_id must be specified"
  else env.promptString "Azure Subscription ID"

/-- The `Azure Client ID` block (lines 84-105). -/
def clientIDStep (env : AzEnv) : Except GoErr String :=
  if env.viperIsSet "azure_client_id" then
    Except.ok (env.viperGetString "azure_client_id")
  else if env.nonInteractive then Except.error "azure_client_id must be specified"
  else env.promptString "Azure Client ID"

/-- The `Azure Client Secret` block (lines 107-128). -/
def secretStep (env : AzEnv) : Except GoErr String :=
  if env.viperIsSet "azure_client_secret" then
    Except.ok (env.viperGetString "azure_client_secret")
  else if env.nonInteractive then Except.error "azure_client_secret must be specified"
  else env.promptString "Azure Client Secret"

/-- The `Azure Tenant ID` block (lines 130-151). -/
def tenantStep (env : AzEnv) : Except GoErr String :=
  if env.viperIsSet "azure_tenant_id" then
    Except.ok (env.viperGetString "azure_tenant_id")
  else if env.nonInteractive then Except.error "azure_tenant_id must be specified"
  else env.promptString "Azure Tenant ID"

/-- The `Azure Environment` block (lines 153-176), a select prompt. -/
def envStep (env : AzEnv) : Except GoErr String :=
  if env.viperIsSet "azure_environment" then
    Except.ok (env.viperGetString "azure_environment")
  else if env.nonInteractive then Except.error "azure_environment must be specified"
  else env.promptSelectVal "Azure Environment"

/-- The `Azure Location` block (lines 214-254), validating a viper-set
location against the listed ones. -/
def locStep (env : AzEnv) (azureLocations : List String) : Except GoErr String :=
  if env.viperIsSet "azure_location" then
    let loc := env.viperGetString "azure_location"
    if azureLocations.contains loc then Except.ok loc
    else Except.error ("Invalid azure_location '" ++ loc
      ++ "', must be one of the following: " ++ String.intercalate ", " azureLocations)
  else if env.nonInteractive then Except.error "azure_location must be specified"
  else env.promptSelectVal "Azure Location"

/-- The `Azure Size` block (lines 269-309). -/
def sizeStep (env : AzEnv) (azureVMSizes : List String) : Except GoErr String :=
  if env.viperIsSet "azure_size" then
    let sz := env.viperGetString "azure_size"
    if azureVMSizes.contains sz then Except.ok sz
    else Except.error ("Invalid azure_size '" ++ sz
      ++ "', must be one of the following: " ++ String.intercalate ", " azureVMSizes)
  else if env.nonInteractive then Except.error "azure_size must be specified"
  else env.promptSelectVal "Azure Size"

/-- The `Azure SSH User` block (lines 328-344). -/
def sshStep (env : AzEnv) : Except GoErr String :=
  if env.viperIsSet "azure_ssh_user" then
    Except.ok (env.viperGetString "azure_ssh_user")
  else if env.nonInteractive then Except.error "azure_ssh_user must be specified"
  else env.promptString "Azure SSH User"

/-- The `Azure Public Key Path` block (lines 346-388): the resolved path
goes through `homedir.Expand`, which can itself fail. -/
def pubStep (env : AzEnv) : Except GoErr String :=
  if env.viperIsSet "azure_public_key_path" then
    env.homedirExpand (env.viperGetString "azure_public_key_path")
  else if env.nonInteractive then Except.error "azure_public_key_path must be specified"
  else do
    let r ← env.promptString "Azure Public Key Path"
    env.homedirExpand r

/-- The `Azure Private Key Path` block (lines 390-432). -/
def privStep (env : AzEnv) : Except GoErr String :=
  if env.viperIsSet "azure_private_key_path" then
    env.homedirExpand (env.viperGetString "azure_private_key_path")
  else if env.nonInteractive then Except.error "azure_private_key_path must be specified"
  else do
    let r ← env.promptString "Azure Private Key Path"
    env.homedirExpand r

/-- Embedding of `newAzureManager` (src/create/manager_azure.go
lines 49-437), threading the state document explicitly: every source
`return err` yields the untouched document, and the single `SetManager`
call is the final action before returning nil. -/
def newAzureManager (env : AzEnv) (currentState : AzState) (name : String) :
    AzState × Option GoErr :=
  stepOr currentState env.baseManagerConfig fun baseConfig =>
  stepOr currentState (subStep env) fun azureSubscriptionID =>
  stepOr currentState (clientIDStep env) fun azureClientID =>
  stepOr currentState (secretStep env) fun azureClientSecret =>
  stepOr currentState (tenantStep env) fun azureTenantID =>
  stepOr currentState (envStep env) fun azureEnvironment =>
  if azureEnvironment ≠ "public" ∧ azureEnvironment ≠ "government"
      ∧ azureEnvironment ≠ "german" ∧ azureEnvironment ≠ "china" then
    (currentState, some ("Invalid azure_environment '" ++ azureEnvironment
      ++ "', must be one of the following: 'public', 'government', 'german', or 'china'"))
  else
  stepOr currentState (env.envFromName ("Azure" ++ azureEnvironment ++ "Cloud")) fun _ =>
  stepOr currentState env.newOAuthConfig fun _ =>
  stepOr currentState env.newSPT fun _ =>
  stepOr currentState env.listLocations fun azureLocations =>
  stepOr currentState (locStep env azureLocations) fun azureLocation =>
  stepOr currentState (env.listVMSizes (strNormalize azureLocation)) fun azureVMSizes =>
  stepOr currentState (sizeStep env azureVMSizes) fun azureSize =>
  stepOr currentState (sshStep env) fun azureSSHUser =>
  stepOr currentState (pubStep env) fun azurePublicKeyPath =>
  stepOr currentState (privStep env) fun azurePrivateKeyPath =>
  (env.setManager currentState
    { base := baseConfig
      azureSubscriptionID := azureSubscriptionID
      azureClientID := azureClientID
      azureClientSecret := azureClientSecret
      azureTenantID := azureTenantID
      azureEnvironment := azureEnvironment
      azureLocation := azureLocation
      azureResourceGroupName := ""
      azureSize := azureSize
      azureImagePublisher := ""
      azureImageOffer := ""
      azureImageSKU := ""
      azureImageVersion := ""
      azureSSHUser := azureSSHUser
      azurePublicKeyPath := azurePublicKeyPath
      azurePrivateKeyPath := azurePrivateKeyPath }, none)

theorem stepOr_err {α : Type} (st : AzState) (x : Except GoErr α)
    (k : α → AzState × Option GoErr)
    (hk : ∀ a, (k a).2 ≠ none → (k a).1 = st) :
    (stepOr st x k).2 ≠ none → (stepOr st x k).1 = st := by
  cases x with
  | error e => intro _; rfl
  | ok a => exact hk a

theorem stepOr_none {α : Type} (env : AzEnv) (st : AzState) (x : Except GoErr α)
    (k : α → AzState × Option GoErr)
    (hk : ∀ a, (k a).2 = none → ∃ cfg, (k a).1 = env.setManager st cfg) :
    (stepOr st x k).2 = none → ∃ cfg, (stepOr st x k).1 = env.setManager st cfg := by
  cases x with
  | error e => intro h; exact absurd h (by simp [stepOr])
  | ok a => exact hk a

end ManagerAzure

/-- C9: `newAzureManager` mutates the state document solely through the
single `SetManager` call made immediately before returning nil; on every
execution path that returns a non-nil error the document is returned
completely unchanged. -/
theorem c9_error_leaves_state_unchanged (env : ManagerAzure.AzEnv)
    (st : ManagerAzure.AzState) (name : String) :
    ((ManagerAzure.newAzureManager env st name).2 ≠ none →
      (ManagerAzure.newAzureManager env st name).1 = st)
    ∧ ((ManagerAzure.newAzureManager env st name).2 = none →
      ∃ cfg, (ManagerAzure.newAzureManager env st name).1 = env.setManager st cfg) := by
  constructor
  · unfold ManagerAzure.newAzureManager
    apply ManagerAzure.stepOr_err; intro baseConfig
    apply ManagerAzure.stepOr_err; intro a1
    apply ManagerAzure.stepOr_err; intro a2
    apply ManagerAzure.stepOr_err; intro a3
    apply ManagerAzure.stepOr_err; intro a4
    apply ManagerAzure.stepOr_err; intro a5
    split
    · intro _; rfl
    · apply ManagerAzure.stepOr_err; intro b1
      apply ManagerAzure.stepOr_err; intro b2
      apply ManagerAzure.stepOr_err; intro b3
      apply ManagerAzure.stepOr_err; intro b4
      apply ManagerAzure.stepOr_err; intro b5
      apply ManagerAzure.stepOr_err; intro b6
      apply ManagerAzure.stepOr_err; intro b7
      apply ManagerAzure.stepOr_err; intro b8
      apply ManagerAzure.stepOr_err; intro b9
      apply ManagerAzure.stepOr_err; intro b10
      intro h
      exact absurd rfl h
  · unfold ManagerAzure.newAzureManager
    apply ManagerAzure.stepOr_none; intro baseConfig
    apply ManagerAzure.stepOr_none; intro a1
    apply ManagerAzure.stepOr_none; intro a2
    apply ManagerAzure.stepOr_none; intro a3
    apply ManagerAzure.stepOr_none; intro a4
    apply ManagerAzure.stepOr_none; intro a5
    split
    · intro h; exact absurd h (by simp)
    · apply ManagerAzure.stepOr_none; intro b1
      apply ManagerAzure.stepOr_none; intro b2
      apply ManagerAzure.stepOr_none; intro b3
      apply ManagerAzure.stepOr_none; intro b4
      apply ManagerAzure.stepOr_none; intro b5
      apply ManagerAzure.stepOr_none; intro b6
      apply ManagerAzure.stepOr_none; intro b7
      apply ManagerAzure.stepOr_none; intro b8
      apply ManagerAzure.stepOr_none; intro b9
      apply ManagerAzure.stepOr_none; intro b10
      intro _
      exact ⟨_, rfl⟩

/-- A concrete environment in which the base-config step fails. -/
def envC9 : ManagerAzure.AzEnv :=
  { nonInteractive := false
    baseManagerConfig := Except.error "no base config"
    viperIsSet := fun _ => false
    viperGetString := fun _ => ""
    promptString := fun _ => Except.ok "p"
    promptSelectVal := fun _ => Except.ok "public"
    envFromName := fun _ => Except.ok ⟨"ad", "rm"⟩
    newOAuthConfig := Except.ok ()
    newSPT := Except.ok ()
    listLocations := Except.ok ["West US"]
    listVMSizes := fun _ => Except.ok ["Standard_A1"]
    homedirExpand := fun s => Except.ok s
    setManager := fun s _ => s }

theorem c9_error_leaves_state_unchanged_witness :
    (ManagerAzure.newAzureManager envC9 ⟨"doc"⟩ "m").1 = (⟨"doc"⟩ : ManagerAzure.AzState) :=
  (c9_error_leaves_state_unchanged envC9 ⟨"doc"⟩ "m").1 (by decide)

end TK
